import Mathlib

/-!
Verification development for the crustyclaw repository.

This file gives a shallow embedding, in Lean 4, of the parts of the
crustyclaw source that the specification's claims are about:

* the policy engine (crates/crustyclaw-config/src/policy.rs),
* the secret store and secret values (crates/crustyclaw-core/src/secrets.rs),
* the credential proxy (crates/crustyclaw-core/src/isolation/credential_proxy.rs),
* sandbox configuration, validation and construction
  (crates/crustyclaw-core/src/isolation.rs),
* the docker argument builder (crates/crustyclaw-core/src/isolation/docker.rs),
* the config-reload transition of the daemon (crates/crustyclaw-core/src/daemon.rs),
* the type-state authentication lifecycle (crates/crustyclaw-core/src/auth.rs).

Modelling conventions:

* Rust machine integers (u32/u64/usize) are modelled as Nat; none of the
  operations involved can overflow in any claim considered here.
* Rust f64 values (only cpu_fraction) are modelled as exact rationals; the
  only arithmetic performed on them in the modelled code is one
  multiplication by 100000 followed by an `as u64` cast, and every concrete
  value used in a theorem below makes that multiplication exact in f64,
  so the rational model agrees with the IEEE-754 computation there.
  The `as u64` cast of a non-negative f64 truncates toward zero, i.e. it
  is the floor; for negative inputs it saturates to 0, matching Int.toNat
  of the floor.
* Rust HashMap<String, V> is modelled as an association list with
  replace-on-insert semantics (AssocMap.insert below); HashMap iteration
  order is arbitrary in Rust, and the model fixes insertion order.
  Theorems that depend on iteration order say so explicitly.
* PathBuf is modelled as String; Path::is_absolute on Unix means the path
  starts with a slash.
* Fallible Rust functions returning Result are modelled with Except.
* Asynchronous I/O actions (reading the config file, running a child
  process) are modelled by passing their outcome as an explicit argument.
-/

namespace CrustyClaw

/-- Effect of a policy rule (policy.rs, enum Effect). -/
inductive Effect where
  | allow
  | deny
deriving DecidableEq, Repr

/-- A single policy rule (policy.rs, struct PolicyRule). Priority: higher is
evaluated first; rules with equal priority are evaluated in insertion order. -/
structure PolicyRule where
  role : String
  action : String
  resource : String
  effect : Effect
  priority : Nat
deriving DecidableEq, Repr

/-- Check whether a rule matches a request (policy.rs, PolicyRule::matches):
each of role/action/resource must be the wildcard "*" or be equal
(case-sensitively) to the corresponding request element. -/
def PolicyRule.matches (r : PolicyRule) (role action resource : String) : Bool :=
  (r.role == "*" || r.role == role)
    && (r.action == "*" || r.action == action)
    && (r.resource == "*" || r.resource == resource)

/-- Result of a policy evaluation (policy.rs, enum PolicyDecision). -/
inductive PolicyDecision where
  | Allowed
  | Denied
  | NoMatch
deriving DecidableEq, Repr

/-- Map a rule effect to the decision evaluate returns for it. -/
def effectDecision : Effect → PolicyDecision
  | .allow => .Allowed
  | .deny => .Denied

/-- Ordering used to model the stable sort in PolicyEngine::rebuild.
Rust Vec::sort_by with comparator (b.priority.cmp(&a.priority)) is a stable
sort by priority descending; a stable sort is exactly the (unique) sort of
the index-decorated list by the lexicographic key
(priority descending, original index ascending), which is what this
relation orders. -/
def ruleBefore (a b : Nat × PolicyRule) : Prop :=
  b.2.priority < a.2.priority ∨ (a.2.priority = b.2.priority ∧ a.1 ≤ b.1)

instance : DecidableRel ruleBefore := fun a b => by
  unfold ruleBefore; exact inferInstance

instance : IsTotal (Nat × PolicyRule) ruleBefore :=
  ⟨by intro a b; unfold ruleBefore; omega⟩

instance : IsTrans (Nat × PolicyRule) ruleBefore :=
  ⟨by intro a b c; unfold ruleBefore; omega⟩

/-- Sorted view of the rule list (policy.rs, PolicyEngine::rebuild): the
rules sorted by priority descending with a stable sort, modelled by sorting
the index-decorated list by ruleBefore and dropping the indices. -/
def rebuild (rules : List PolicyRule) : List PolicyRule :=
  (List.insertionSort ruleBefore rules.enum).map Prod.snd

/-- Evaluate an access request (policy.rs, PolicyEngine::evaluate): the
engine rebuilds the sorted view when dirty (after any add_rule, so always
fresh here) and returns the effect of the first matching rule in the sorted
view, or NoMatch when none matches. -/
def evaluate (rules : List PolicyRule) (role action resource : String) :
    PolicyDecision :=
  match (rebuild rules).find? (fun r => r.matches role action resource) with
  | some r => effectDecision r.effect
  | none => PolicyDecision.NoMatch

/-- Convenience wrapper (policy.rs, PolicyEngine::is_allowed). -/
def is_allowed (rules : List PolicyRule) (role action resource : String) :
    Bool :=
  evaluate rules role action resource == PolicyDecision.Allowed

/-- Association-list model of Rust HashMap<String, V>: lookup by key. -/
def AssocMap.lookup {α : Type} (k : String) :
    List (String × α) → Option α
  | [] => none
  | (k₀, v₀) :: t => if k₀ == k then some v₀ else AssocMap.lookup k t

/-- Association-list model of Rust HashMap<String, V>: insert replaces the
value of an existing key in place and otherwise appends a fresh binding. -/
def AssocMap.insert {α : Type} (k : String) (v : α) :
    List (String × α) → List (String × α)
  | [] => [(k, v)]
  | (k₀, v₀) :: t =>
    if k₀ == k then (k, v) :: t else (k₀, v₀) :: AssocMap.insert k v t

/-- A single secret value (secrets.rs, struct SecretValue). The raw bytes are
modelled as the underlying String; zeroization on drop is a memory property
outside the shallow embedding. -/
structure SecretValue where
  inner : String
deriving DecidableEq, Repr

/-- Expose the secret value (secrets.rs, SecretValue::expose). -/
def SecretValue.expose (v : SecretValue) : String :=
  v.inner

/-- Length of the secret value in bytes (secrets.rs, SecretValue::len;
Rust String::len counts UTF-8 bytes). -/
def SecretValue.len (v : SecretValue) : Nat :=
  v.inner.utf8ByteSize

/-- Debug formatting of a SecretValue (secrets.rs, impl fmt::Debug for
SecretValue): f.debug_struct("SecretValue").field("inner", "[REDACTED]")
.field("len", len).finish() renders, in non-alternate mode, as
SecretValue \x7b inner: "[REDACTED]", len: N \x7d where N is the byte
length of the secret. -/
def SecretValue.debugFormat (v : SecretValue) : String :=
  "SecretValue \x7b inner: \"[REDACTED]\", len: " ++ toString v.len ++ " \x7d"

/-- Fixed redaction template: the Debug output of any SecretValue of byte
length n. Stated from the spec side to express that the Debug output
depends on the secret only through its length. -/
def redactedTemplate (n : Nat) : String :=
  "SecretValue \x7b inner: \"[REDACTED]\", len: " ++ toString n ++ " \x7d"

/-- Substring test on character lists, mirroring Rust str::contains with a
literal pattern: the needle occurs at some position of the haystack. -/
def containsSub (hay needle : List Char) : Bool :=
  match hay with
  | [] => needle.isEmpty
  | _ :: t => decide (needle <+: hay) || containsSub t needle

/-- How a secret is injected into a container (secrets.rs, enum
InjectionMethod). -/
inductive InjectionMethod where
  | Env (env_name : String)
  | File (file_path : String)
  | Both (env_name : String) (file_path : String)
deriving DecidableEq, Repr

/-- A named secret with its injection configuration (secrets.rs, struct
SecretEntry). -/
structure SecretEntry where
  name : String
  value : SecretValue
  injection : InjectionMethod
  description : String
deriving DecidableEq, Repr

/-- Source a secret was loaded from (secrets.rs, enum SecretSource). -/
inductive SecretSource where
  | Config
  | Environment (var : String)
  | File (path : String)
deriving DecidableEq, Repr

/-- Errors from secret store operations (secrets.rs, enum SecretError).
The io::Error payloads are modelled as strings. -/
inductive SecretError where
  | NotFound (name : String)
  | FileRead (path : String) (source : String)
  | Duplicate (name : String)
  | EnvNotSet (var : String)
  | EmptyValue (name : String)
  | FileWrite (e : String)
deriving DecidableEq, Repr

/-- In-memory secret store (secrets.rs, struct SecretStore): a map from
name to entry plus a map from name to provenance, both HashMaps in the
source, modelled as association lists. -/
structure SecretStore where
  secrets : List (String × SecretEntry)
  sources : List (String × SecretSource)
deriving Repr

/-- Add a secret to the store (secrets.rs, SecretStore::insert): reject
empty values, otherwise HashMap::insert into both maps, which silently
replaces any existing binding for the same name. -/
def SecretStore.insert (st : SecretStore) (entry : SecretEntry)
    (source : SecretSource) : Except SecretError SecretStore :=
  if entry.value.inner.isEmpty then
    .error (.EmptyValue entry.name)
  else
    .ok { secrets := AssocMap.insert entry.name entry st.secrets,
          sources := AssocMap.insert entry.name source st.sources }

/-- Retrieve a secret by name (secrets.rs, SecretStore::get). -/
def SecretStore.get (st : SecretStore) (name : String) : Option SecretEntry :=
  AssocMap.lookup name st.secrets

/-- Get the source of a secret (secrets.rs, SecretStore::source). -/
def SecretStore.source (st : SecretStore) (name : String) :
    Option SecretSource :=
  AssocMap.lookup name st.sources

/-- Number of secrets in the store (secrets.rs, SecretStore::len). -/
def SecretStore.len (st : SecretStore) : Nat :=
  st.secrets.length

/-- A sentinel mapping (credential_proxy.rs, struct SentinelMapping). The
real value is never stored here. -/
structure SentinelMapping where
  name : String
  sentinel : String
  env_name : String
deriving DecidableEq, Repr

/-- Deterministic sentinel for a credential name (credential_proxy.rs,
CredentialProxy::sentinel_for). -/
def sentinel_for (name : String) : String :=
  "__CRUSTYCLAW_SENTINEL_" ++ name ++ "__"

/-- The credential proxy (credential_proxy.rs, struct CredentialProxy) is
its vector of sentinel mappings, in insertion order. -/
abbrev CredentialProxy : Type := List SentinelMapping

/-- Register a credential mapping (credential_proxy.rs,
CredentialProxy::add_mapping): appends a mapping whose sentinel is derived
from the name. -/
def add_mapping (proxy : CredentialProxy) (name env_name : String) :
    CredentialProxy :=
  List.append proxy [{ name := name, sentinel := sentinel_for name,
                       env_name := env_name }]

/-- Replacement step on character lists, mirroring Rust str::replace:
non-overlapping matches are found left to right and each is replaced by
the substitute; an empty pattern matches at every character boundary.
The fuel argument bounds the recursion; fuel = length of the text is
sufficient because every step consumes at least one character of the text
(structural recursion keeps the definition computable by the kernel). -/
def replaceGo (p v : List Char) : Nat → List Char → List Char
  | _, [] => if p.isEmpty then v else []
  | 0, s => s
  | fuel + 1, c :: t =>
    if p.isEmpty then v ++ c :: replaceGo p v fuel t
    else if p <+: c :: t then
      v ++ replaceGo p v fuel ((c :: t).drop p.length)
    else c :: replaceGo p v fuel t

/-- Rust str::replace on the String model. -/
def replaceStr (s pat sub : String) : String :=
  String.mk (replaceGo pat.data sub.data s.data.length s.data)

/-- Inject sentinel values into a sandbox environment (credential_proxy.rs,
CredentialProxy::inject_sentinels, restricted to the env map it updates):
for each mapping, HashMap::insert(env_name, sentinel). -/
def inject_sentinels_env (proxy : CredentialProxy)
    (env : List (String × String)) : List (String × String) :=
  proxy.foldl (fun e m => AssocMap.insert m.env_name m.sentinel e) env

/-- Replace sentinel values in a string with real credentials
(credential_proxy.rs, CredentialProxy::replace_sentinels): for each
(sentinel, real) pair of the resolved map, result = result.replace(...).
Rust iterates the HashMap in arbitrary order; the model iterates the
association list in its own order. -/
def replace_sentinels (text : String) (resolved : List (String × String)) :
    String :=
  resolved.foldl (fun acc q => replaceStr acc q.1 q.2) text

/-- Errors from sandbox creation and execution (isolation.rs, enum
IsolationError; the CredentialProxy variant is referenced by
credential_proxy.rs). Durations are modelled in milliseconds. -/
inductive IsolationError where
  | Create (msg : String)
  | Execution (msg : String)
  | Timeout (ms : Nat)
  | ResourceLimit (msg : String)
  | FsViolation (msg : String)
  | NetViolation (msg : String)
  | UnsupportedBackend (msg : String)
  | CredentialProxy (msg : String)
deriving DecidableEq, Repr

/-- Whether an isolation error is the Create variant. -/
def IsolationError.isCreate : IsolationError → Bool
  | .Create _ => true
  | _ => false

/-- Build the sentinel → real-value map (credential_proxy.rs,
CredentialProxy::resolve_sentinels): for each mapping, look the name up in
the secret store, failing with a CredentialProxy error when absent, and
HashMap::insert(sentinel, exposed value). The accumulator models the
HashMap being filled by the source's loop. -/
def resolveAux (store : SecretStore) :
    List SentinelMapping → List (String × String) →
    Except IsolationError (List (String × String))
  | [], acc => .ok acc
  | m :: rest, acc =>
    match store.get m.name with
    | none =>
      .error (.CredentialProxy
        ("credential '" ++ m.name ++ "' not found in secret store"))
    | some entry =>
      resolveAux store rest (AssocMap.insert m.sentinel entry.value.expose acc)

/-- Entry point of resolve_sentinels: starts from the empty map. -/
def resolve_sentinels (proxy : CredentialProxy) (store : SecretStore) :
    Except IsolationError (List (String × String)) :=
  resolveAux store proxy []

/-- CPU resource limits (isolation.rs, struct CpuLimits). cpu_fraction is
an f64 in the source, modelled as an exact rational (see file header). -/
structure CpuLimits where
  max_cores : Nat
  cpu_fraction : ℚ
deriving DecidableEq, Repr

/-- Memory resource limits (isolation.rs, struct MemoryLimits). -/
structure MemoryLimits where
  max_bytes : Nat
  allow_swap : Bool
deriving DecidableEq, Repr

/-- Combined resource limits (isolation.rs, struct ResourceLimits).
timeout is in milliseconds. -/
structure ResourceLimits where
  cpu : CpuLimits
  memory : MemoryLimits
  timeout : Option Nat
  max_open_files : Option Nat
  max_pids : Option Nat
deriving DecidableEq, Repr

/-- Mount access mode (isolation.rs, enum MountAccess). -/
inductive MountAccess where
  | ReadOnly
  | ReadWrite
deriving DecidableEq, Repr

/-- A filesystem mount shared between host and sandbox (isolation.rs,
struct SharedMount); paths modelled as strings. -/
structure SharedMount where
  host_path : String
  guest_path : String
  access : MountAccess
deriving DecidableEq, Repr

/-- Network isolation policy (isolation.rs, enum NetworkPolicy). -/
inductive NetworkPolicy where
  | None
  | HostOnly
  | OutboundOnly
  | AllowList (cidrs : List String)
deriving DecidableEq, Repr

/-- Declarative sandbox configuration (isolation.rs, struct SandboxConfig).
The env HashMap is modelled as an association list. -/
structure SandboxConfig where
  label : String
  limits : ResourceLimits
  mounts : List SharedMount
  network : NetworkPolicy
  env : List (String × String)
  workdir : String
deriving DecidableEq, Repr

/-- Path::is_absolute for the String path model: on Unix a path is
absolute exactly when it starts with a slash (checked on the character
representation). -/
def isAbsolutePath (p : String) : Bool :=
  decide ("/".data <+: p.data)

/-- Validate a sandbox configuration (isolation.rs, SandboxConfig::validate).
Checks run in source order: empty label, cpu_fraction outside (0, 1],
max_cores = 0 and max_bytes = 0 each produce a Create error; the first
mount whose guest path is not absolute produces an FsViolation error.
The cpu_fraction error message interpolates the f64 with Display in the
source; the model prints the rational (no claim depends on that text). -/
def SandboxConfig.validate (c : SandboxConfig) : Except IsolationError Unit :=
  if c.label.isEmpty then
    .error (.Create "sandbox label must not be empty")
  else if c.limits.cpu.cpu_fraction ≤ 0 ∨ 1 < c.limits.cpu.cpu_fraction then
    .error (.Create ("cpu_fraction must be in (0.0, 1.0], got "
      ++ toString c.limits.cpu.cpu_fraction))
  else if c.limits.cpu.max_cores = 0 then
    .error (.Create "max_cores must be at least 1")
  else if c.limits.memory.max_bytes = 0 then
    .error (.Create "memory limit must be non-zero")
  else
    match c.mounts.find? (fun m => !isAbsolutePath m.guest_path) with
    | some m =>
      .error (.FsViolation ("guest mount path must be absolute: "
        ++ m.guest_path))
    | none => .ok ()

/-- Outcome of a sandboxed execution (isolation.rs, struct SandboxResult);
elapsed is in milliseconds. -/
structure SandboxResult where
  exit_code : Int
  stdout : String
  stderr : String
  elapsed : Nat
  peak_memory_bytes : Option Nat
deriving DecidableEq, Repr

/-- Platform isolation backend (isolation.rs, trait SandboxBackend),
modelled by its observable interface: the stable name, the availability
probe's result on the current host, and the execution behaviour. The
async execute is abstracted as a function from config and argv to its
eventual outcome. -/
structure Backend where
  name : String
  avail : Bool
  run : SandboxConfig → List String → Except IsolationError SandboxResult

/-- A configured sandbox (isolation.rs, struct Sandbox). -/
structure Sandbox where
  config : SandboxConfig
  backend : Backend

/-- Create a sandbox (isolation.rs, Sandbox::new): propagate any validation
error unchanged (the ? operator), then fail with UnsupportedBackend when
the backend is unavailable. -/
def Sandbox.new (config : SandboxConfig) (backend : Backend) :
    Except IsolationError Sandbox :=
  match config.validate with
  | .error e => .error e
  | .ok _ =>
    if !backend.avail then
      .error (.UnsupportedBackend ("backend '" ++ backend.name
        ++ "' is not available on this platform"))
    else
      .ok { config := config, backend := backend }

/-- Execute a command inside a sandbox (isolation.rs, Sandbox::execute):
reject an empty argv with an Execution error, otherwise delegate to the
backend. -/
def Sandbox.execute (sb : Sandbox) (command : List String) :
    Except IsolationError SandboxResult :=
  if command.isEmpty then
    .error (.Execution "command must not be empty")
  else
    sb.backend.run sb.config command

/-- Cgroup CPU bandwidth period in microseconds (isolation.rs,
LinuxNamespaceBackend::cgroup_limits, period_us). -/
def periodUs : Nat := 100000

/-- Cgroup CPU quota (isolation.rs, cgroup_limits, quota_us): the source
computes (period_us as f64 * cpu_fraction) as u64; the as-cast of a
non-negative f64 truncates toward zero and saturates negative values to
zero, i.e. Int.toNat of the floor in the exact rational model. -/
def quotaUs (cpu_fraction : ℚ) : Nat :=
  (⌊(periodUs : ℚ) * cpu_fraction⌋).toNat

/-- Cgroup resource limit entries for a sandbox (isolation.rs,
LinuxNamespaceBackend::cgroup_limits), in the order the source pushes
them: memory.max, memory.swap.max (only when swap is disallowed),
cpu.max as "quota period", and pids.max when a pid limit is present. -/
def cgroup_limits (limits : ResourceLimits) : List (String × String) :=
  [("memory.max", toString limits.memory.max_bytes)]
    ++ (if limits.memory.allow_swap then []
        else [("memory.swap.max", "0")])
    ++ [("cpu.max", toString (quotaUs limits.cpu.cpu_fraction) ++ " "
          ++ toString periodUs)]
    ++ (match limits.max_pids with
        | some n => [("pids.max", toString n)]
        | none => [])

/-- Docker backend construction data (docker.rs, struct
DockerSandboxBackend). -/
structure DockerSandboxBackend where
  docker_bin : String
  default_image : String
deriving DecidableEq, Repr

/-- Rendering of cpu_fraction with Rust format specifier {:.2}: two
decimal digits, rounded to nearest. Exact rational model of the f64
formatting; the claims below never inspect this string's value. -/
def formatCpus (q : ℚ) : String :=
  let n : Nat := (round (q * 100)).toNat
  toString (n / 100) ++ "."
    ++ (if n % 100 < 10 then "0" else "") ++ toString (n % 100)

/-- Network flag value for docker run (docker.rs, build_args match on
config.network). -/
def networkArg : NetworkPolicy → String
  | .None => "none"
  | .HostOnly => "host"
  | .OutboundOnly => "bridge"
  | .AllowList _ => "bridge"

/-- Docker run argument list (docker.rs, DockerSandboxBackend::build_args),
with each push/extend of the source rendered as a list append, in source
order: run --rm --init, --cpus, --memory (plus --memory-swap equal to
--memory when swap is disallowed), optional --pids-limit, --network,
--workdir, repeated -e KEY=VALUE, repeated -v host:guest[:ro], --label,
the image, then the command argv. -/
def build_args (b : DockerSandboxBackend) (c : SandboxConfig)
    (command : List String) : List String :=
  ["run", "--rm", "--init"]
    ++ ["--cpus", formatCpus c.limits.cpu.cpu_fraction]
    ++ ["--memory",
         toString (c.limits.memory.max_bytes / (1024 * 1024)) ++ "m"]
    ++ (if c.limits.memory.allow_swap then []
        else ["--memory-swap",
               toString (c.limits.memory.max_bytes / (1024 * 1024)) ++ "m"])
    ++ (match c.limits.max_pids with
        | some n => ["--pids-limit", toString n]
        | none => [])
    ++ ["--network", networkArg c.network]
    ++ ["--workdir", c.workdir]
    ++ c.env.flatMap (fun kv => ["-e", kv.1 ++ "=" ++ kv.2])
    ++ c.mounts.flatMap (fun m =>
         ["-v", m.host_path ++ ":" ++ m.guest_path
            ++ (match m.access with
                | .ReadOnly => ":ro"
                | .ReadWrite => "")])
    ++ ["--label", "crustyclaw.sandbox=" ++ c.label]
    ++ [b.default_image]
    ++ command

/-- Loaded application configuration (crustyclaw-config lib.rs, struct
AppConfig), restricted to the daemon fields; the reload claim treats the
config as opaque data. -/
structure AppConfig where
  listen_addr : String
  listen_port : Nat
deriving DecidableEq, Repr

/-- Errors from config loading (crustyclaw-config lib.rs, enum
ConfigError): I/O, TOML parse and validation failures, payloads modelled
as strings. -/
inductive ConfigError where
  | Io (e : String)
  | Parse (e : String)
  | Validation (e : String)
deriving DecidableEq, Repr

/-- Daemon state relevant to config reload (daemon.rs, struct Daemon):
the value currently held by the config watch channel. The daemon itself
keeps a receiver, so the channel always has an observer and
watch::Sender::send always stores the new value. -/
structure DaemonState where
  watchValue : AppConfig
deriving DecidableEq, Repr

/-- Config reload transition (daemon.rs, Daemon::reload_config): the
outcome of the async AppConfig::load(config_path) is passed in explicitly.
On success the new config is published to the watch channel; on failure
the error is logged and the watched value is left unchanged. -/
def reload_config (d : DaemonState)
    (loadResult : Except ConfigError AppConfig) : DaemonState :=
  match loadResult with
  | .ok newConfig => { d with watchValue := newConfig }
  | .error _ => d

/-- Local OS identity (auth.rs, struct LocalIdentity). -/
structure LocalIdentity where
  username : String
  uid : Nat
  gid : Nat
  is_privileged : Bool
deriving DecidableEq, Repr

/-- Default policy role for an identity (auth.rs,
LocalIdentity::default_role): admin when privileged, else the username. -/
def LocalIdentity.default_role (li : LocalIdentity) : String :=
  if li.is_privileged then "admin" else li.username

/-- Authenticated session state (auth.rs, struct Authenticated). -/
structure Authenticated where
  identity : String
  local_identity : Option LocalIdentity
deriving DecidableEq, Repr

/-- Authorized session state (auth.rs, struct Authorized). -/
structure Authorized where
  identity : String
  roles : List String
  local_identity : Option LocalIdentity
deriving DecidableEq, Repr

/-- Transition authenticate (auth.rs, Session::<Unauthenticated>::
authenticate): any identity, no local identity recorded. -/
def authenticate (identity : String) : Authenticated :=
  { identity := identity, local_identity := none }

/-- Transition authenticate_local (auth.rs, Session::<Unauthenticated>::
authenticate_local): the identity detected from the OS is passed in
explicitly (LocalIdentity::detect is environment I/O). -/
def authenticate_local (li : LocalIdentity) : Authenticated :=
  { identity := li.username, local_identity := some li }

/-- Transition authorize (auth.rs, Session::<Authenticated>::authorize):
the roles vector is whatever the caller supplies. -/
def authorize (s : Authenticated) (roles : List String) : Authorized :=
  { identity := s.identity, roles := roles,
    local_identity := s.local_identity }

/-- Candidate role loop of authorize_with_policy (auth.rs): for each
candidate in ["admin", "operator", "user", "viewer"], grant it when the
policy allows (candidate, "auth", "session"), it is not already present,
and the policy allows (identity, "assume", candidate). -/
def grantStep (engine : List PolicyRule) (identity : String)
    (rs : List String) (candidate : String) : List String :=
  if is_allowed engine candidate "auth" "session"
      && !(rs.contains candidate)
      && is_allowed engine identity "assume" candidate then
    rs ++ [candidate]
  else rs

/-- Candidate loop of authorize_with_policy (auth.rs): fold grantStep over
the fixed candidate list. -/
def grantRoles (engine : List PolicyRule) (identity : String)
    (roles : List String) : List String :=
  ["admin", "operator", "user", "viewer"].foldl (grantStep engine identity)
    roles

/-- Transition authorize_with_policy (auth.rs, Session::<Authenticated>::
authorize_with_policy): roles start from the default role (from the local
identity when present, else the identity) and candidates are added by the
policy loop. -/
def authorize_with_policy (s : Authenticated) (engine : List PolicyRule) :
    Authorized :=
  let default_role :=
    match s.local_identity with
    | some li => li.default_role
    | none => s.identity
  { identity := s.identity,
    roles := grantRoles engine s.identity [default_role],
    local_identity := s.local_identity }

/-- Authorized sessions reachable through the legal transitions of the
type-state machine: Session::new(), then authenticate or
authenticate_local (with any detected identity), then authorize (with any
caller-supplied roles) or authorize_with_policy (with any engine). -/
inductive ReachableAuthorized : Authorized → Prop
  | viaAuthorize (id : String) (roles : List String) :
      ReachableAuthorized (authorize (authenticate id) roles)
  | viaAuthorizeLocal (li : LocalIdentity) (roles : List String) :
      ReachableAuthorized (authorize (authenticate_local li) roles)
  | viaPolicy (id : String) (engine : List PolicyRule) :
      ReachableAuthorized (authorize_with_policy (authenticate id) engine)
  | viaPolicyLocal (li : LocalIdentity) (engine : List PolicyRule) :
      ReachableAuthorized (authorize_with_policy (authenticate_local li) engine)

/-! Concrete instances used by witnesses and counterexamples below. -/

/-- Resource limits exhibiting the truncation/rounding divergence:
cpu_fraction = 1/131072 = 2^(-17) is exactly representable as an f64 and
100000 × 2^(-17) = 3125/4096 ≈ 0.7629 is computed exactly by the f64
multiplication, so the rational model agrees with the machine arithmetic
at this input. -/
def truncLimits : ResourceLimits :=
  { cpu := { max_cores := 1, cpu_fraction := 1/131072 },
    memory := { max_bytes := 1024, allow_swap := true },
    timeout := none, max_open_files := none, max_pids := none }
/-- Concrete store holding the secret api_key for the C10 witness. -/
def demoStore : SecretStore :=
  { secrets := [("api_key",
      { name := "api_key", value := ⟨"old-value"⟩,
        injection := .Env "API_KEY", description := "" })],
    sources := [("api_key", .Config)] }
/-- Replacement entry for the C10 witness. -/
def demoEntry : SecretEntry :=
  { name := "api_key", value := ⟨"new-value"⟩,
    injection := .Env "API_KEY", description := "replacement" }
/-- Generic backend value used for concrete instantiations: the claims
quantify over arbitrary backends, and only the name and the availability
flag are inspected by Sandbox::new. -/
def demoBackend : Backend :=
  { name := "noop", avail := true,
    run := fun _ _ => .error (.Execution "execution not modelled") }
/-- Concrete configuration whose only validation failure is a relative
mount guest path. -/
def relMountCfg : SandboxConfig :=
  { label := "bad-mount",
    limits := { cpu := { max_cores := 1, cpu_fraction := 1 },
                memory := { max_bytes := 1024, allow_swap := false },
                timeout := none, max_open_files := none, max_pids := none },
    mounts := [{ host_path := "/host/path", guest_path := "relative/guest",
                 access := .ReadOnly }],
    network := .None, env := [], workdir := "/workspace" }

/-- Concrete rule set from the policy-precedence scenario of the spec:
a low-priority allow-all for user and a high-priority deny on writing
secrets. -/
def demoRules : List PolicyRule :=
  [{ role := "user", action := "*", resource := "*",
     effect := .allow, priority := 1 },
   { role := "user", action := "write", resource := "secrets",
     effect := .deny, priority := 100 }]

/-- Credential proxy for the C2 counterexample: two mappings built with
add_mapping, with distinct env names. -/
def cexProxy : CredentialProxy :=
  add_mapping (add_mapping [] "a" "E_A") "b" "E_B"

/-- Credential proxy exhibiting a duplicate env name: both mappings
target the env var E. -/
def cexProxyDup : CredentialProxy :=
  add_mapping (add_mapping [] "a" "E") "b" "E"

/-- Secret store for the C2 counterexample: the real value of credential a
is itself the sentinel text of credential b. -/
def cexStore : SecretStore :=
  { secrets :=
      [("a", { name := "a", value := ⟨"__CRUSTYCLAW_SENTINEL_b__"⟩,
               injection := .Env "E_A", description := "" }),
       ("b", { name := "b", value := ⟨"X"⟩,
               injection := .Env "E_B", description := "" })],
    sources := [] }

/-- Single-mapping credential proxy for the C2 witness. -/
def apiProxy : CredentialProxy :=
  add_mapping [] "api_key" "API_KEY"

/-- Entry held by the witness store for api_key. -/
def apiEntry : SecretEntry :=
  { name := "api_key", value := ⟨"sk-real"⟩,
    injection := .Env "API_KEY", description := "" }

/-- Store for the C2 witness: holds api_key with value sk-real. -/
def apiStore : SecretStore :=
  { secrets := [("api_key", apiEntry)], sources := [("api_key", .Config)] }

/-! Helper lemmas about the association-list model of HashMap. -/

theorem AssocMap.lookup_insert_self {α : Type} (k : String) (v : α)
    (l : List (String × α)) :
    AssocMap.lookup k (AssocMap.insert k v l) = some v := by
  induction l with
  | nil => simp [AssocMap.insert, AssocMap.lookup]
  | cons hd tl ih =>
    obtain ⟨k₀, v₀⟩ := hd
    by_cases h : k₀ == k
    · simp [AssocMap.insert, AssocMap.lookup, h]
    · simp [AssocMap.insert, AssocMap.lookup, h, ih]

theorem AssocMap.lookup_insert_of_ne {α : Type} {k k₂ : String} (h : k₂ ≠ k)
    (v : α) (l : List (String × α)) :
    AssocMap.lookup k (AssocMap.insert k₂ v l) = AssocMap.lookup k l := by
  induction l with
  | nil =>
    simp [AssocMap.insert, AssocMap.lookup]
    intro hc
    exact absurd hc h
  | cons hd tl ih =>
    obtain ⟨k₀, v₀⟩ := hd
    by_cases h0 : k₀ == k₂
    · have hk₀ : k₀ = k₂ := by simpa using h0
      subst hk₀
      have hne : (k₀ == k) = false := by
        simpa using h
      simp [AssocMap.insert, AssocMap.lookup, h0, hne]
    · by_cases h1 : k₀ == k
      · simp [AssocMap.insert, AssocMap.lookup, h0, h1]
      · simp [AssocMap.insert, AssocMap.lookup, h0, h1, ih]

theorem AssocMap.length_insert_of_mem {α : Type} {k : String}
    {l : List (String × α)} (v : α)
    (h : (AssocMap.lookup k l).isSome) :
    (AssocMap.insert k v l).length = l.length := by
  induction l with
  | nil => simp [AssocMap.lookup] at h
  | cons hd tl ih =>
    obtain ⟨k₀, v₀⟩ := hd
    by_cases h0 : k₀ == k
    · simp [AssocMap.insert, h0]
    · simp [AssocMap.lookup, h0] at h
      simp [AssocMap.insert, h0, ih h]

/-- C6: whenever the daemon performs a config reload, a failed load leaves
the value held by the config watch channel unchanged (observers see no
update), and a successful load makes the watch channel hold exactly the
newly parsed config. -/
theorem reload_config_watch (d : DaemonState) :
    (∀ e : ConfigError, reload_config d (.error e) = d) ∧
    (∀ c : AppConfig, (reload_config d (.ok c)).watchValue = c) :=
  ⟨fun _ => rfl, fun _ => rfl⟩

/-- C7: build_args produces the docker argument list in exactly the claimed
order — run --rm --init, --cpus, --memory (with --memory-swap equal to
--memory when swap is disallowed), optional --pids-limit, --network,
--workdir, the repeated -e KEY=VALUE pairs, the repeated -v
host:guest[:ro] mounts with :ro exactly for read-only mounts, --label
crustyclaw.sandbox=label, the image, then the command argv — and any two
calls with identical inputs produce identical argument lists. -/
theorem build_args_order (b : DockerSandboxBackend) (c : SandboxConfig)
    (command : List String) :
    build_args b c command =
      ["run", "--rm", "--init",
       "--cpus", formatCpus c.limits.cpu.cpu_fraction,
       "--memory", toString (c.limits.memory.max_bytes / (1024 * 1024)) ++ "m"]
      ++ (if c.limits.memory.allow_swap then []
          else ["--memory-swap",
                 toString (c.limits.memory.max_bytes / (1024 * 1024)) ++ "m"])
      ++ (match c.limits.max_pids with
          | some n => ["--pids-limit", toString n]
          | none => [])
      ++ ["--network", networkArg c.network, "--workdir", c.workdir]
      ++ c.env.flatMap (fun kv => ["-e", kv.1 ++ "=" ++ kv.2])
      ++ c.mounts.flatMap (fun m =>
           ["-v", m.host_path ++ ":" ++ m.guest_path
              ++ (match m.access with
                  | .ReadOnly => ":ro"
                  | .ReadWrite => "")])
      ++ (["--label", "crustyclaw.sandbox=" ++ c.label]
          ++ [b.default_image] ++ command) ∧
    (∀ b₂ c₂ cmd₂, b = b₂ → c = c₂ → command = cmd₂ →
      build_args b c command = build_args b₂ c₂ cmd₂) := by
  constructor
  · simp [build_args]
  · intro b₂ c₂ cmd₂ h1 h2 h3
    rw [h1, h2, h3]

/-- Witness for C7 at a concrete backend, config and argv. -/
theorem build_args_order_witness :
    build_args { docker_bin := "docker", default_image := "alpine:latest" }
        { label := "s",
          limits := { cpu := { max_cores := 1, cpu_fraction := 1/2 },
                      memory := { max_bytes := 512 * 1024 * 1024,
                                  allow_swap := false },
                      timeout := none, max_open_files := none,
                      max_pids := some 100 },
          mounts := [], network := .None, env := [("A", "1")],
          workdir := "/w" }
        ["echo", "hi"]
      = build_args { docker_bin := "docker", default_image := "alpine:latest" }
        { label := "s",
          limits := { cpu := { max_cores := 1, cpu_fraction := 1/2 },
                      memory := { max_bytes := 512 * 1024 * 1024,
                                  allow_swap := false },
                      timeout := none, max_open_files := none,
                      max_pids := some 100 },
          mounts := [], network := .None, env := [("A", "1")],
          workdir := "/w" }
        ["echo", "hi"] :=
  (build_args_order _ _ _).2 _ _ _ rfl rfl rfl

/-- C8 (amended): the cgroup entries derived by the Linux-namespace backend
satisfy memory.max = max_bytes; memory.swap.max = 0 is emitted exactly when
allow_swap is false; cpu.max is the string "quota period" with
period = 100000 microseconds and quota the TRUNCATION (floor) of
100000 × cpu_fraction, matching the as-u64 cast in the source rather than
the rounding the claim states; and pids.max equals max_pids exactly when
max_pids is present. -/
theorem cgroup_limits_entries (l : ResourceLimits) :
    AssocMap.lookup "memory.max" (cgroup_limits l)
        = some (toString l.memory.max_bytes) ∧
    AssocMap.lookup "memory.swap.max" (cgroup_limits l)
        = (if l.memory.allow_swap then none else some "0") ∧
    AssocMap.lookup "cpu.max" (cgroup_limits l)
        = some (toString (⌊(100000 : ℚ) * l.cpu.cpu_fraction⌋).toNat
            ++ " " ++ toString (100000 : Nat)) ∧
    AssocMap.lookup "pids.max" (cgroup_limits l)
        = l.max_pids.map (fun n => toString n) := by
  cases hs : l.memory.allow_swap <;> cases hp : l.max_pids <;>
    simp [cgroup_limits, AssocMap.lookup, hs, hp, quotaUs, periodUs]

/-- Counterexample to C8 as stated: at cpu_fraction = 2^(-17) the code
emits cpu.max = "0 100000" (truncation of 0.7629… to 0), while rounding
100000 × cpu_fraction to the nearest integer gives 1, so the claimed
entry would be "1 100000". -/
theorem cgroup_quota_truncates :
    AssocMap.lookup "cpu.max" (cgroup_limits truncLimits) = some "0 100000" ∧
    round ((100000 : ℚ) * (1/131072 : ℚ)) = 1 ∧
    toString (round ((100000 : ℚ) * (1/131072 : ℚ))).toNat ++ " "
        ++ toString (100000 : Nat) = "1 100000" ∧
    ("0 100000" : String) ≠ "1 100000" := by
  have hq : quotaUs (1/131072 : ℚ) = 0 := by
    have hf : ⌊(periodUs : ℚ) * (1/131072 : ℚ)⌋ = 0 := by
      rw [Int.floor_eq_iff]
      norm_num [periodUs]
    rw [quotaUs, hf]
    rfl
  have hr : round ((100000 : ℚ) * (1/131072 : ℚ)) = 1 := by
    rw [round_eq, Int.floor_eq_iff]
    norm_num
  refine ⟨?_, hr, ?_, by decide⟩
  · have : AssocMap.lookup "cpu.max" (cgroup_limits truncLimits)
        = some (toString (quotaUs (1/131072 : ℚ)) ++ " "
            ++ toString periodUs) := by
      simp [cgroup_limits, truncLimits, AssocMap.lookup]
    rw [this, hq]
    decide
  · rw [hr]
    decide

/-- One step of the candidate-role loop of authorize_with_policy (auth.rs):
grant the candidate when the policy allows (candidate, "auth", "session"),
it is not already granted, and the policy allows
(identity, "assume", candidate). -/
theorem grantStep_ne_nil (engine : List PolicyRule) (identity : String)
    (rs : List String) (candidate : String) (h : rs ≠ []) :
    grantStep engine identity rs candidate ≠ [] := by
  unfold grantStep
  split
  · simp
  · exact h

theorem foldl_grantStep_ne_nil (engine : List PolicyRule) (identity : String) :
    ∀ (cs : List String) (rs : List String), rs ≠ [] →
      cs.foldl (grantStep engine identity) rs ≠ [] := by
  intro cs
  induction cs with
  | nil => intro rs h; exact h
  | cons c cs ih =>
    intro rs h
    exact ih _ (grantStep_ne_nil engine identity rs c h)

/-- Counterexample to C9 as stated: the Authorized session with identity
"alice" and an empty roles vector is reachable through the legal
transitions (authenticate then authorize with the caller-supplied empty
vector), yet its roles() vector is empty. -/
theorem authorized_empty_roles_reachable :
    ReachableAuthorized
        { identity := "alice", roles := [], local_identity := none } ∧
    Authorized.roles
        { identity := "alice", roles := [], local_identity := none } = [] :=
  ⟨ReachableAuthorized.viaAuthorize "alice" [], rfl⟩

/-- C9 (amended): an Authorized session produced by authorize_with_policy
always has a non-empty roles vector (the default role is always granted),
while authorize yields exactly the caller-supplied vector, so its roles
are non-empty only when the supplied vector is. -/
theorem authorized_roles_characterization (a : Authenticated)
    (engine : List PolicyRule) (roles : List String) :
    (authorize_with_policy a engine).roles ≠ [] ∧
    (authorize a roles).roles = roles := by
  constructor
  · unfold authorize_with_policy grantRoles
    exact foldl_grantStep_ne_nil engine a.identity _ _ (by simp)
  · rfl

/-- C10: inserting an entry with a non-empty value whose name is already
present returns Ok and silently replaces both the stored entry and its
recorded source; the store's length is unchanged; and insert never
returns the Duplicate error variant (no other store operation returns a
Result at all). -/
theorem secretStore_insert_replaces (st : SecretStore) (entry : SecretEntry)
    (src : SecretSource) :
    (∀ name, SecretStore.insert st entry src ≠ .error (.Duplicate name)) ∧
    (entry.value.inner.isEmpty = false →
      ∀ old, st.get entry.name = some old →
        ∃ st₂, SecretStore.insert st entry src = .ok st₂ ∧
          st₂.get entry.name = some entry ∧
          st₂.source entry.name = some src ∧
          st₂.len = st.len) := by
  constructor
  · intro name
    by_cases he : entry.value.inner.isEmpty <;>
      simp [SecretStore.insert, he]
  · intro he old hold
    refine ⟨⟨AssocMap.insert entry.name entry st.secrets,
             AssocMap.insert entry.name src st.sources⟩, ?_, ?_, ?_, ?_⟩
    · simp [SecretStore.insert, he]
    · exact AssocMap.lookup_insert_self entry.name entry st.secrets
    · exact AssocMap.lookup_insert_self entry.name src st.sources
    · have hm : (AssocMap.lookup entry.name st.secrets).isSome := by
        rw [SecretStore.get] at hold
        simp [hold]
      simpa [SecretStore.len] using AssocMap.length_insert_of_mem entry hm

/-- Witness for C10 at a concrete store that already contains api_key. -/
theorem secretStore_insert_replaces_witness :
    (SecretStore.insert demoStore demoEntry (.Environment "CRUSTYCLAW_SECRET_API_KEY")
        ≠ .error (.Duplicate "api_key")) ∧
    (∃ st₂, SecretStore.insert demoStore demoEntry
          (.Environment "CRUSTYCLAW_SECRET_API_KEY") = .ok st₂ ∧
        st₂.get "api_key" = some demoEntry ∧
        st₂.source "api_key" = some (.Environment "CRUSTYCLAW_SECRET_API_KEY") ∧
        st₂.len = demoStore.len) :=
  ⟨(secretStore_insert_replaces demoStore demoEntry _).1 "api_key",
   (secretStore_insert_replaces demoStore demoEntry _).2 (by decide)
     { name := "api_key", value := ⟨"old-value"⟩,
       injection := .Env "API_KEY", description := "" } (by decide)⟩

/-! C5: Debug redaction of secret values. -/

theorem containsSub_append_left (a b n : List Char)
    (h : containsSub a n = true) : containsSub (a ++ b) n = true := by
  induction a with
  | nil =>
    have hn : n = [] := by
      simp [containsSub] at h
      exact h
    subst hn
    cases b with
    | nil => simp [containsSub]
    | cons c t => simp [containsSub]
  | cons c t ih =>
    simp only [containsSub, Bool.or_eq_true, decide_eq_true_eq] at h
    rcases h with h | h
    · have hp : n <+: c :: (t ++ b) := by
        refine h.trans ?_
        have := List.prefix_append (c :: t) b
        simp only [List.cons_append] at this
        exact this
      simp [containsSub, hp]
    · simp [containsSub, ih h]

/-- Counterexample to C5 as stated: for the SecretValue whose content is
the string [REDACTED] itself, the Debug output does contain
v.expose() as a substring (while still containing the literal
[REDACTED]), so the universally quantified claim fails. -/
theorem secretValue_debug_contains_own_expose :
    containsSub (SecretValue.debugFormat ⟨"[REDACTED]"⟩).data
        (SecretValue.expose ⟨"[REDACTED]"⟩).data = true := by
  decide

/-- C5 (amended): the Debug formatting of every SecretValue contains the
literal [REDACTED], and it equals the fixed redaction template determined
by the secret's byte length alone; consequently it contains v.expose()
only when v.expose() already occurs in that fixed template (as the
pathological secret "[REDACTED]" above does). -/
theorem secretValue_debug_redacted (v : SecretValue) :
    containsSub (SecretValue.debugFormat v).data "[REDACTED]".data = true ∧
    SecretValue.debugFormat v = redactedTemplate v.len ∧
    (containsSub (redactedTemplate v.len).data (SecretValue.expose v).data
        = false →
      containsSub (SecretValue.debugFormat v).data
          (SecretValue.expose v).data = false) := by
  refine ⟨?_, rfl, fun h => h⟩
  have hd : (SecretValue.debugFormat v).data
      = "SecretValue \x7b inner: \"[REDACTED]\", len: ".data
        ++ ((toString v.len).data ++ " \x7d".data) := by
    simp [SecretValue.debugFormat, List.append_assoc]
  rw [hd]
  exact containsSub_append_left _ _ _ (by decide)

/-- Witness for C5 at a concrete secret whose content does not occur in
the redaction template. -/
theorem secretValue_debug_redacted_witness :
    containsSub (redactedTemplate (SecretValue.len ⟨"super-secret-api-key"⟩)).data
        (SecretValue.expose ⟨"super-secret-api-key"⟩).data = false ∧
    containsSub (SecretValue.debugFormat ⟨"super-secret-api-key"⟩).data
        (SecretValue.expose ⟨"super-secret-api-key"⟩).data = false :=
  ⟨by decide, (secretValue_debug_redacted ⟨"super-secret-api-key"⟩).2.2 (by decide)⟩

/-! C3: sandbox config validation and sandbox construction. -/

/-- Counterexample to C3 as stated: a config failing only the mount check
makes Sandbox::new return an FsViolation error, which is not the Create
variant the claim asserts. -/
theorem sandbox_new_relative_mount_fsviolation :
    Sandbox.new relMountCfg demoBackend
        = .error (.FsViolation
            "guest mount path must be absolute: relative/guest") ∧
    IsolationError.isCreate
        (.FsViolation "guest mount path must be absolute: relative/guest")
        = false := by
  constructor
  · have hv : relMountCfg.validate
        = .error (.FsViolation
            "guest mount path must be absolute: relative/guest") := by
      have hA : ("bad-mount" : String).isEmpty = false := by decide
      have hB : ¬((1 : ℚ) ≤ 0) := by norm_num
      have hC : ¬((1 : ℚ) < 1) := by norm_num
      have hD : isAbsolutePath "relative/guest" = false := by decide
      simp [SandboxConfig.validate, relMountCfg, hA, hB, hC, hD]
    simp [Sandbox.new, hv]
  · rfl

/-- C3 (amended): a config failing the label, cpu_fraction, max_cores or
max_bytes check makes Sandbox::new return a Create error; a config passing
those checks but containing a mount whose guest path is not absolute makes
Sandbox::new return an FsViolation error (not Create); and an empty argv
is rejected by Sandbox::execute (not by Sandbox::new) with an Execution
error. -/
theorem sandbox_new_validation_errors (c : SandboxConfig) (b : Backend)
    (sb : Sandbox) :
    ((c.label.isEmpty = true ∨ c.limits.cpu.cpu_fraction ≤ 0 ∨
        1 < c.limits.cpu.cpu_fraction ∨ c.limits.cpu.max_cores = 0 ∨
        c.limits.memory.max_bytes = 0) →
      ∃ msg, Sandbox.new c b = .error (.Create msg)) ∧
    (c.label.isEmpty = false →
      ¬(c.limits.cpu.cpu_fraction ≤ 0 ∨ 1 < c.limits.cpu.cpu_fraction) →
      c.limits.cpu.max_cores ≠ 0 →
      c.limits.memory.max_bytes ≠ 0 →
      (∃ m ∈ c.mounts, isAbsolutePath m.guest_path = false) →
      ∃ msg, Sandbox.new c b = .error (.FsViolation msg)) ∧
    Sandbox.execute sb [] = .error (.Execution "command must not be empty") := by
  refine ⟨?_, ?_, rfl⟩
  · intro h
    by_cases h1 : c.label.isEmpty = true
    · exact ⟨"sandbox label must not be empty",
        by simp [Sandbox.new, SandboxConfig.validate, h1]⟩
    · by_cases h2 : c.limits.cpu.cpu_fraction ≤ 0 ∨
          1 < c.limits.cpu.cpu_fraction
      · exact ⟨"cpu_fraction must be in (0.0, 1.0], got "
            ++ toString c.limits.cpu.cpu_fraction,
          by simp [Sandbox.new, SandboxConfig.validate, h1, h2]⟩
      · by_cases h3 : c.limits.cpu.max_cores = 0
        · exact ⟨"max_cores must be at least 1",
            by simp [Sandbox.new, SandboxConfig.validate, h1, h2, h3]⟩
        · by_cases h4 : c.limits.memory.max_bytes = 0
          · exact ⟨"memory limit must be non-zero", by
              simp [Sandbox.new, SandboxConfig.validate, h1, h2, h3, h4]⟩
          · exact absurd h (by simp [h1, h2, h3, h4])
  · intro h1 h2 h3 h4 hex
    obtain ⟨m, hm, habs⟩ := hex
    have hsome : (c.mounts.find? (fun m => !isAbsolutePath m.guest_path)).isSome := by
      rw [List.find?_isSome]
      exact ⟨m, hm, by simp [habs]⟩
    obtain ⟨m₀, hfind⟩ := Option.isSome_iff_exists.mp hsome
    exact ⟨"guest mount path must be absolute: " ++ m₀.guest_path,
      by simp [Sandbox.new, SandboxConfig.validate, h1, h2, h3, h4, hfind]⟩

/-- Witness for C3 at a concrete empty-label config and a concrete
sandbox with an empty argv. -/
theorem sandbox_new_validation_errors_witness :
    (∃ msg, Sandbox.new { relMountCfg with label := "", mounts := [] }
        demoBackend = .error (.Create msg)) ∧
    Sandbox.execute { config := relMountCfg, backend := demoBackend } []
        = .error (.Execution "command must not be empty") :=
  ⟨(sandbox_new_validation_errors { relMountCfg with label := "", mounts := [] }
      demoBackend { config := relMountCfg, backend := demoBackend }).1
      (Or.inl (by decide)),
   (sandbox_new_validation_errors { relMountCfg with label := "", mounts := [] }
      demoBackend { config := relMountCfg, backend := demoBackend }).2.2⟩


/-! C1: the policy engine decision procedure. -/

theorem sorted_find?_least {α : Type} {R : α → α → Prop} {p : α → Bool} :
    ∀ {l : List α} {a : α}, List.Pairwise R l → l.find? p = some a →
      ∀ b ∈ l, p b = true → b = a ∨ R a b := by
  intro l
  induction l with
  | nil =>
    intro a _ hf
    simp at hf
  | cons x xs ih =>
    intro a hpw hf b hb hpb
    obtain ⟨hx, hxs⟩ := List.pairwise_cons.mp hpw
    by_cases hpx : p x = true
    · rw [List.find?_cons_of_pos _ hpx] at hf
      obtain rfl : x = a := by injection hf
      rcases List.mem_cons.mp hb with rfl | hb
      · exact Or.inl rfl
      · exact Or.inr (hx b hb)
    · rw [List.find?_cons_of_neg _ (by simpa using hpx)] at hf
      rcases List.mem_cons.mp hb with rfl | hb
      · exact absurd hpb hpx
      · exact ih hxs hf b hb hpb

/-- C1: for every rule set and every request, evaluate returns the effect
of the first rule that matches the request in the rule list sorted by
priority descending with ties kept in insertion order (the stable sort of
rebuild), and returns NoMatch when no rule matches. The first-match rule
is characterized order-independently: it matches, and every other
matching rule either has strictly lower priority or has equal priority
and a later (or equal) insertion index. -/
theorem policy_evaluate_first_match (rules : List PolicyRule)
    (role action resource : String) :
    ((∀ r ∈ rules, r.matches role action resource = false) →
      evaluate rules role action resource = .NoMatch) ∧
    (∀ (i : Nat) (r : PolicyRule), rules[i]? = some r →
      r.matches role action resource = true →
      ∃ (j : Nat) (s : PolicyRule), rules[j]? = some s ∧
        s.matches role action resource = true ∧
        evaluate rules role action resource = effectDecision s.effect ∧
        (∀ (k : Nat) (t : PolicyRule), rules[k]? = some t →
          t.matches role action resource = true →
          t.priority < s.priority ∨
            (t.priority = s.priority ∧ j ≤ k))) := by
  have hperm := List.perm_insertionSort ruleBefore rules.enum
  have hsorted := List.sorted_insertionSort ruleBefore rules.enum
  constructor
  · intro hall
    have hnone : (List.insertionSort ruleBefore rules.enum).find?
        ((fun r => r.matches role action resource) ∘ Prod.snd) = none := by
      rw [List.find?_eq_none]
      intro x hx
      have hxe : x ∈ rules.enum := hperm.mem_iff.mp hx
      have hxr : x.2 ∈ rules := by
        obtain ⟨i, a⟩ := x
        exact List.getElem?_mem (List.mk_mem_enum_iff_getElem?.mp hxe)
      simp [hall x.2 hxr]
    have hfind : (rebuild rules).find?
        (fun r => r.matches role action resource) = none := by
      rw [rebuild, List.find?_map, hnone]
      rfl
    simp [evaluate, hfind]
  · intro i r hget hmatch
    have hmem2 : (i, r) ∈ List.insertionSort ruleBefore rules.enum :=
      hperm.mem_iff.mpr (List.mk_mem_enum_iff_getElem?.mpr hget)
    have hsome : ((List.insertionSort ruleBefore rules.enum).find?
        ((fun r => r.matches role action resource) ∘ Prod.snd)).isSome := by
      rw [List.find?_isSome]
      exact ⟨(i, r), hmem2, hmatch⟩
    obtain ⟨a, hfind⟩ := Option.isSome_iff_exists.mp hsome
    obtain ⟨j, s⟩ := a
    have hps0 := List.find?_some hfind
    have hps : s.matches role action resource = true := hps0
    have hjs_enum : (j, s) ∈ rules.enum :=
      hperm.mem_iff.mp (List.mem_of_find?_eq_some hfind)
    have hgets : rules[j]? = some s :=
      List.mk_mem_enum_iff_getElem?.mp hjs_enum
    have heval : evaluate rules role action resource
        = effectDecision s.effect := by
      have hfind2 : (rebuild rules).find?
          (fun r => r.matches role action resource) = some s := by
        rw [rebuild, List.find?_map, hfind]
        rfl
      simp [evaluate, hfind2]
    refine ⟨j, s, hgets, hps, heval, ?_⟩
    intro k t hgetk hpt
    have hmemk : (k, t) ∈ List.insertionSort ruleBefore rules.enum :=
      hperm.mem_iff.mpr (List.mk_mem_enum_iff_getElem?.mpr hgetk)
    have hle := sorted_find?_least hsorted hfind (k, t) hmemk hpt
    rcases hle with heq | hR
    · have hk : k = j := congrArg Prod.fst heq
      have ht : t = s := congrArg Prod.snd heq
      right
      constructor
      · rw [ht]
      · omega
    · rcases hR with h | ⟨h1, h2⟩
      · exact Or.inl h
      · exact Or.inr ⟨h1.symm, h2⟩

/-- Witness for C1: on the concrete demo rule set, a request matched by no
rule evaluates to NoMatch. -/
theorem policy_evaluate_first_match_witness :
    evaluate demoRules "guest" "read" "x" = .NoMatch :=
  (policy_evaluate_first_match demoRules "guest" "read" "x").1 (by decide)


/-! C2: sentinel injection and the credential round trip. -/

theorem replaceGo_no_occur (p v : List Char) (hp : p ≠ []) :
    ∀ (fuel : Nat) (s : List Char), ¬ p <:+: s → replaceGo p v fuel s = s := by
  obtain ⟨pc, pt, rfl⟩ := List.exists_cons_of_ne_nil hp
  intro fuel
  induction fuel with
  | zero =>
    intro s h
    cases s with
    | nil => simp [replaceGo]
    | cons c t => simp [replaceGo]
  | succ fuel ih =>
    intro s h
    cases s with
    | nil => simp [replaceGo]
    | cons c t =>
      have hnp : ¬ pc :: pt <+: c :: t := fun hcp => h (List.IsPrefix.isInfix hcp)
      have hnt : ¬ pc :: pt <:+: t := fun hit => h (List.infix_cons hit)
      simp only [replaceGo, List.isEmpty_cons, Bool.false_eq_true, if_false]
      rw [if_neg hnp, ih t hnt]

theorem replaceGo_self (p v : List Char) (hp : p ≠ []) (fuel : Nat)
    (hf : 1 ≤ fuel) : replaceGo p v fuel p = v := by
  obtain ⟨pc, pt, rfl⟩ := List.exists_cons_of_ne_nil hp
  obtain ⟨f, rfl⟩ : ∃ f, fuel = f + 1 := ⟨fuel - 1, by omega⟩
  simp only [replaceGo, List.isEmpty_cons, Bool.false_eq_true, if_false]
  rw [if_pos List.prefix_rfl, List.drop_length]
  simp [replaceGo]

theorem foldl_replace_no_occur (x : String) :
    ∀ (l : List (String × String)), (∀ q ∈ l, ¬ q.1.data <:+: x.data) →
      l.foldl (fun acc q => replaceStr acc q.1 q.2) x = x := by
  intro l
  induction l with
  | nil => intro _; rfl
  | cons q l ih =>
    intro h
    have hq := h q (List.mem_cons_self q l)
    have hne : q.1.data ≠ [] := by
      intro hnil
      exact hq (hnil ▸ List.nil_infix)
    have hstep : replaceStr x q.1 q.2 = x := by
      rw [replaceStr, replaceGo_no_occur q.1.data q.2.data hne _ _ hq]
    rw [List.foldl_cons, hstep]
    exact ih (fun q2 hq2 => h q2 (List.mem_cons_of_mem _ hq2))

theorem replace_sentinels_decomp (s₀ v₀ : String) (hs : s₀.data ≠ [])
    (l₁ l₂ : List (String × String))
    (h₁ : ∀ q ∈ l₁, ¬ q.1.data <:+: s₀.data)
    (h₂ : ∀ q ∈ l₂, ¬ q.1.data <:+: v₀.data) :
    replace_sentinels s₀ (l₁ ++ (s₀, v₀) :: l₂) = v₀ := by
  rw [replace_sentinels, List.foldl_append, foldl_replace_no_occur s₀ l₁ h₁,
    List.foldl_cons]
  have hstep : replaceStr s₀ s₀ v₀ = v₀ := by
    rw [replaceStr, replaceGo_self s₀.data v₀.data hs _
      (List.length_pos.mpr hs)]
  rw [hstep]
  exact foldl_replace_no_occur v₀ l₂ h₂

theorem AssocMap.insert_append {α : Type} (k : String) (v : α) :
    ∀ (l : List (String × α)), (∀ q ∈ l, q.1 ≠ k) →
      AssocMap.insert k v l = l ++ [(k, v)] := by
  intro l
  induction l with
  | nil => intro _; rfl
  | cons q t ih =>
    intro h
    obtain ⟨k₀, v₀⟩ := q
    have hq : k₀ ≠ k := h (k₀, v₀) (List.mem_cons_self _ _)
    have hb : (k₀ == k) = false := by simp [hq]
    simp [AssocMap.insert, hb, ih (fun q2 hq2 => h q2 (List.mem_cons_of_mem _ hq2))]

theorem resolveAux_ok (store : SecretStore) :
    ∀ (ms : List SentinelMapping) (acc : List (String × String)),
      (∀ m ∈ ms, (store.get m.name).isSome) →
      (∀ m ∈ ms, ∀ q ∈ acc, q.1 ≠ m.sentinel) →
      List.Pairwise (fun a b => a.sentinel ≠ b.sentinel) ms →
      resolveAux store ms acc = .ok (acc ++ ms.map (fun m =>
        (m.sentinel,
         ((store.get m.name).map (fun e => e.value.expose)).getD ""))) := by
  intro ms
  induction ms with
  | nil =>
    intro acc _ _ _
    simp [resolveAux]
  | cons m rest ih =>
    intro acc h1 h2 hpw
    obtain ⟨e, he⟩ := Option.isSome_iff_exists.mp (h1 m (List.mem_cons_self _ _))
    obtain ⟨hm_rest, hpw_rest⟩ := List.pairwise_cons.mp hpw
    have hins : AssocMap.insert m.sentinel e.value.expose acc
        = acc ++ [(m.sentinel, e.value.expose)] :=
      AssocMap.insert_append _ _ acc
        (fun q hq => h2 m (List.mem_cons_self _ _) q hq)
    have hstep : resolveAux store (m :: rest) acc
        = resolveAux store rest
            (AssocMap.insert m.sentinel e.value.expose acc) := by
      rw [resolveAux, he]
    rw [hstep, hins, ih (acc ++ [(m.sentinel, e.value.expose)])
      (fun m2 hm2 => h1 m2 (List.mem_cons_of_mem _ hm2))
      (fun m2 hm2 q hq => by
        rcases List.mem_append.mp hq with hqa | hqs
        · exact h2 m2 (List.mem_cons_of_mem _ hm2) q hqa
        · have : q = (m.sentinel, e.value.expose) := by simpa using hqs
          rw [this]
          exact hm_rest m2 hm2)
      hpw_rest]
    simp [he, List.append_assoc]

theorem inject_env_untouched (k : String) :
    ∀ (proxy : List SentinelMapping) (env : List (String × String)),
      (∀ m ∈ proxy, m.env_name ≠ k) →
      AssocMap.lookup k (inject_sentinels_env proxy env)
        = AssocMap.lookup k env := by
  intro proxy
  induction proxy with
  | nil => intro env _; rfl
  | cons m rest ih =>
    intro env h
    have hstep : inject_sentinels_env (m :: rest) env
        = inject_sentinels_env rest
            (AssocMap.insert m.env_name m.sentinel env) := rfl
    rw [hstep, ih _ (fun m2 hm2 => h m2 (List.mem_cons_of_mem _ hm2)),
      AssocMap.lookup_insert_of_ne (h m (List.mem_cons_self _ _))]

theorem inject_env_lookup :
    ∀ (proxy : List SentinelMapping) (env : List (String × String)),
      List.Pairwise (fun a b => a.env_name ≠ b.env_name) proxy →
      ∀ m ∈ proxy,
        AssocMap.lookup m.env_name (inject_sentinels_env proxy env)
          = some m.sentinel := by
  intro proxy
  induction proxy with
  | nil =>
    intro env _ m hm
    simp at hm
  | cons m₀ rest ih =>
    intro env hpw m hm
    obtain ⟨hhead, htail⟩ := List.pairwise_cons.mp hpw
    have hstep : inject_sentinels_env (m₀ :: rest) env
        = inject_sentinels_env rest
            (AssocMap.insert m₀.env_name m₀.sentinel env) := rfl
    rcases List.mem_cons.mp hm with rfl | hm2
    · rw [hstep,
        inject_env_untouched m.env_name rest _
          (fun m2 hm2 => Ne.symm (hhead m2 hm2)),
        AssocMap.lookup_insert_self]
    · rw [hstep]
      exact ih _ htail m hm2

/-- Counterexample to C2 as stated: with two mappings a and b and a store
whose real value for a is the sentinel text of b, the round trip on a's
sentinel yields "X" (b's value) instead of a's stored value, under the
model's iteration order of the resolved map; under the opposite iteration
order the result equals a's value but still contains sentinel text, so
under every iteration order the claimed conjunction fails. A proxy with a
duplicated env name also breaks the claimed env equation for its first
mapping. -/
theorem sentinel_roundtrip_cex :
    resolve_sentinels cexProxy cexStore
      = .ok [("__CRUSTYCLAW_SENTINEL_a__", "__CRUSTYCLAW_SENTINEL_b__"),
             ("__CRUSTYCLAW_SENTINEL_b__", "X")] ∧
    replace_sentinels (sentinel_for "a")
        [("__CRUSTYCLAW_SENTINEL_a__", "__CRUSTYCLAW_SENTINEL_b__"),
         ("__CRUSTYCLAW_SENTINEL_b__", "X")] = "X" ∧
    (cexStore.get "a").map (fun e => e.value.expose)
      = some "__CRUSTYCLAW_SENTINEL_b__" ∧
    ("X" : String) ≠ "__CRUSTYCLAW_SENTINEL_b__" ∧
    replace_sentinels (sentinel_for "a")
        [("__CRUSTYCLAW_SENTINEL_b__", "X"),
         ("__CRUSTYCLAW_SENTINEL_a__", "__CRUSTYCLAW_SENTINEL_b__")]
      = "__CRUSTYCLAW_SENTINEL_b__" ∧
    containsSub "__CRUSTYCLAW_SENTINEL_b__".data
        (sentinel_for "b").data = true ∧
    AssocMap.lookup "E" (inject_sentinels_env cexProxyDup [])
      = some "__CRUSTYCLAW_SENTINEL_b__" ∧
    sentinel_for "a" ≠ "__CRUSTYCLAW_SENTINEL_b__" := by
  refine ⟨by rfl, by rfl, by rfl, by decide, by rfl, by decide,
    by rfl, by decide⟩

/-- C2 (amended): for a proxy whose mappings carry pairwise-distinct env
names and pairwise-distinct sentinels, inject_sentinels sets
env[env_name] = sentinel for every mapping; and for a mapping m whose
store value exists, provided no other mapping's sentinel occurs inside
m's sentinel and no other mapping's sentinel occurs inside m's real
value, replace_sentinels applied to m's sentinel with the resolved map
returns exactly the store's real value for m. -/
theorem credential_proxy_roundtrip (proxy : CredentialProxy)
    (store : SecretStore) (m : SentinelMapping) (e : SecretEntry)
    (env : List (String × String))
    (hm : m ∈ proxy)
    (hdistinctEnv : List.Pairwise (fun a b => a.env_name ≠ b.env_name) proxy)
    (hdistinctSen : List.Pairwise (fun a b => a.sentinel ≠ b.sentinel) proxy)
    (hsome : ∀ m2 ∈ proxy, (store.get m2.name).isSome)
    (he : store.get m.name = some e)
    (hsen_ne : m.sentinel.data ≠ [])
    (hnoSenInSen : ∀ m2 ∈ proxy, m2 ≠ m →
      ¬ m2.sentinel.data <:+: m.sentinel.data)
    (hnoSenInVal : ∀ m2 ∈ proxy, m2 ≠ m →
      ¬ m2.sentinel.data <:+: e.value.expose.data) :
    AssocMap.lookup m.env_name (inject_sentinels_env proxy env)
      = some m.sentinel ∧
    ∃ resolved, resolve_sentinels proxy store = .ok resolved ∧
      replace_sentinels m.sentinel resolved = e.value.expose := by
  refine ⟨inject_env_lookup proxy env hdistinctEnv m hm, ?_⟩
  obtain ⟨p₁, p₂, rfl⟩ := List.append_of_mem hm
  have hres := resolveAux_ok store (p₁ ++ m :: p₂) [] hsome
    (fun m2 _ q hq => absurd hq (List.not_mem_nil q)) hdistinctSen
  rw [resolve_sentinels]
  refine ⟨_, hres, ?_⟩
  obtain ⟨hpw₁, hpwc, hrel⟩ := List.pairwise_append.mp hdistinctSen
  obtain ⟨hm_p₂, hpw₂⟩ := List.pairwise_cons.mp hpwc
  have hval : ((store.get m.name).map (fun e => e.value.expose)).getD ""
      = e.value.expose := by simp [he]
  have hmap : ((p₁ ++ m :: p₂).map (fun m2 =>
      (m2.sentinel,
       ((store.get m2.name).map (fun e2 => e2.value.expose)).getD "")))
      = p₁.map (fun m2 =>
          (m2.sentinel,
           ((store.get m2.name).map (fun e2 => e2.value.expose)).getD ""))
        ++ (m.sentinel, e.value.expose)
          :: p₂.map (fun m2 =>
               (m2.sentinel,
                ((store.get m2.name).map (fun e2 => e2.value.expose)).getD "")) := by
    simp [hval]
  rw [List.nil_append, hmap]
  apply replace_sentinels_decomp m.sentinel e.value.expose hsen_ne
  · intro q hq
    obtain ⟨m2, hm2, rfl⟩ := List.mem_map.mp hq
    have hne : m2 ≠ m := by
      intro hcontra
      exact (hrel m2 hm2 m (List.mem_cons_self _ _)) (by rw [hcontra])
    exact hnoSenInSen m2 (List.mem_append_left _ hm2) hne
  · intro q hq
    obtain ⟨m2, hm2, rfl⟩ := List.mem_map.mp hq
    have hne : m2 ≠ m := by
      intro hcontra
      exact (hm_p₂ m2 hm2) (by rw [hcontra])
    exact hnoSenInVal m2
      (List.mem_append_right _ (List.mem_cons_of_mem _ hm2)) hne

/-- Witness for C2 at a one-mapping proxy and a store holding sk-real:
the sandbox env var carries the sentinel and the round trip recovers the
real value. -/
theorem credential_proxy_roundtrip_witness :
    AssocMap.lookup "API_KEY" (inject_sentinels_env apiProxy [])
      = some "__CRUSTYCLAW_SENTINEL_api_key__" ∧
    ∃ resolved, resolve_sentinels apiProxy apiStore = .ok resolved ∧
      replace_sentinels "__CRUSTYCLAW_SENTINEL_api_key__" resolved
        = "sk-real" :=
  credential_proxy_roundtrip apiProxy apiStore
    { name := "api_key", sentinel := "__CRUSTYCLAW_SENTINEL_api_key__",
      env_name := "API_KEY" }
    apiEntry [] (by decide) (by decide) (by decide)
    (by decide) (by decide) (by decide) (by decide) (by decide)

end CrustyClaw
